import Mathlib

/-!
Verification development for the js.rs interpreter core (src/src/exec.rs and
src/src/lexer.rs): a shallow embedding of the tree-walking evaluator and of the
lexer, together with theorems settling the specification claims.

Modelling conventions:
* Rust `f64` payloads are modelled as `ℚ`.  Every numeric literal appearing in
  the claims is a small integer, which `f64` represents exactly; NaN and the
  infinities are not representable in the model and no claim depends on them.
* `Gc<RefCell<ObjectData>>` sharing is modelled with an explicit heap of
  object records addressed by `Nat`; a `Value` holding an object is the
  address, so mutations are visible through every copy, as in the source.
* `Gc<RefCell<Function>>` likewise lives in a separate function heap.
* `fail!` / `.unwrap()` aborts are modelled by the `crash` outcome, and the
  evaluator takes a fuel parameter; `timeout` is the model artifact for
  exhausted fuel (the source loops instead).
-/

namespace JsRs

/-! ## AST (the `ast::Expr` constructors matched by `Interpreter::run`;
`ast.rs` itself is not under src/, so the shapes are taken from their use in
`src/src/exec.rs`).  The variants the claims never mention (`WhileLoopExpr`,
`IfExpr`, `NumOpExpr`, `BitOpExpr`, `ArrayDeclExpr`) are omitted from the
embedding. -/

inductive NumOp where
  | OpAdd
  | OpSub
  | OpMul
  | OpDiv
  | OpMod
deriving DecidableEq, Repr

inductive BitOp where
  | BitAnd
  | BitOr
  | BitXor
deriving DecidableEq, Repr

inductive CompOp where
  | CompEqual
  | CompNotEqual
  | CompLessThan
  | CompGreaterThan
  | CompLessThanOrEqual
  | CompGreaterThanOrEqual
deriving DecidableEq, Repr

inductive LogOp where
  | LogAnd
  | LogOr
deriving DecidableEq, Repr

inductive ConstData where
  | CNull
  | CUndefined
  | CNum (n : ℚ)
  | CInt (n : Int)
  | CString (s : String)
  | CBool (b : Bool)
  | CRegExp (body : String) (g : Bool) (i : Bool)
deriving DecidableEq, Repr

inductive Expr where
  | ConstExpr (c : ConstData)
  | BlockExpr (es : List Expr)
  | LocalExpr (name : String)
  | GetConstFieldExpr (obj : Expr) (field : String)
  | GetFieldExpr (obj : Expr) (field : Expr)
  | CallExpr (callee : Expr) (args : List Expr)
  | SwitchExpr (disc : Expr) (branches : List (Expr × List Expr)) (deflt : Option Expr)
  | ObjectDeclExpr (fields : List (String × Expr))
  | FunctionDeclExpr (name : Option String) (args : List String) (body : Expr)
  | ConstructExpr (callee : Expr) (args : List Expr)
  | ReturnExpr (e : Option Expr)
  | ThrowExpr (e : Expr)
  | AssignExpr (target : Expr) (value : Expr)

/-! ## Value model (`js::value`, `js::object`, `js::function`).
These modules are not under src/ (only `exec.rs` and `lexer.rs` are), so the
value representation is modelled from the spec, §3 and §4.1, with the variant
names used by `exec.rs`. -/

/-- The runtime value sum.  `VObject` and `VFunction` are shared handles:
the payload is an address into `Interpreter.heap` / `Interpreter.funcHeap`. -/
inductive ValueData where
  | VNull
  | VUndefined
  | VNumber (n : ℚ)
  | VInteger (n : Int)
  | VString (s : String)
  | VBoolean (b : Bool)
  | VObject (ptr : Nat)
  | VFunction (ptr : Nat)
deriving DecidableEq, Repr

/-- Modelled from the spec: a scope / object binding record (spec §3,
"a binding record"); `exec.rs` reads its `value` field at `v.value.clone()`. -/
structure Property where
  value : ValueData
deriving DecidableEq, Repr

/-- Modelled from the spec: `ObjectData` is a mapping from string keys to
values (spec §3); the source uses a `TreeMap`, modelled as an association
list with unique keys (`odInsert` replaces in place). -/
abbrev ObjectData := List (String × Property)

/-- `TreeMap::find`. -/
def odFind (od : ObjectData) (k : String) : Option Property :=
  (od.find? (fun p => p.1 = k)).map (fun p => p.2)

/-- `TreeMap::insert`: replace the binding if the key is present, else add. -/
def odInsert (od : ObjectData) (k : String) (v : Property) : ObjectData :=
  match od with
  | [] => [(k, v)]
  | (k', v') :: rest =>
      if k' = k then (k, v) :: rest else (k', v') :: odInsert rest k v

/-- A user function record: `RegularFunc(RegularFunction::new(expr, args))`.
Native functions belong to the external built-in modules and are not
modelled. -/
structure FunctionRec where
  args : List String
  expr : Expr

/-- The interpreter state: the global object handle, the scope stack
(`scopes`, head = most recently pushed), and the two heaps backing the
`Gc<RefCell<...>>` handles. -/
structure Interpreter where
  global : ValueData
  scopes : List ObjectData
  heap : List ObjectData
  funcHeap : List FunctionRec

def heapGet (I : Interpreter) (p : Nat) : ObjectData :=
  I.heap.getD p []

def heapSet (I : Interpreter) (p : Nat) (od : ObjectData) : Interpreter :=
  { I with heap := I.heap.set p od }

/-- Modelled from the spec: `get_field(k)` "on a non-object returns
Undefined; on an object it returns the local binding if present, else
recurses via `__proto__`" (spec §4.1), with the fuel guarding against
prototype cycles (spec §9). -/
def getFieldAux : Nat → Interpreter → ValueData → String → ValueData
  | 0, _, _, _ => .VUndefined
  | fuel + 1, I, .VObject p, k =>
      match odFind (heapGet I p) k with
      | some pr => pr.value
      | none =>
          match odFind (heapGet I p) "__proto__" with
          | some pr => getFieldAux fuel I pr.value k
          | none => .VUndefined
  | _ + 1, _, _, _ => .VUndefined

def getField (I : Interpreter) (v : ValueData) (k : String) : ValueData :=
  getFieldAux (I.heap.length + 1) I v k

/-- Modelled from the spec: `set_field(k, v)` "always writes the local slot
(never the prototype's), creating the slot if missing, and returns `v`"
(spec §4.1); on a non-object it is a no-op. -/
def setField (I : Interpreter) (v : ValueData) (k : String) (w : ValueData) : Interpreter :=
  match v with
  | .VObject p => heapSet I p (odInsert (heapGet I p) k (Property.mk w))
  | _ => I

/-- Modelled from the spec: `to_string` (spec §4.1).  Only the primitive
cases are exercised by the claims; an object's own `toString` callable is
not consulted in the model. -/
def to_str (v : ValueData) : String :=
  match v with
  | .VNull => "null"
  | .VUndefined => "undefined"
  | .VBoolean b => if b then "true" else "false"
  | .VNumber n => if n.den = 1 then n.num.repr else n.num.repr ++ "/" ++ (n.den : Int).repr
  | .VInteger n => n.repr
  | .VString s => s
  | .VObject _ => "[object Object]"
  | .VFunction _ => "function"

/-- `to_value` on a host float (`js::value::to_value`, modelled from the
spec's "`to_value(x)` lifts host numbers ... into Values"). -/
def to_value (n : ℚ) : ValueData :=
  .VNumber n

/-- Equality on values as `run` uses it in the switch comparison.  Primitives
compare structurally; Object and Function values compare by handle identity
(modelled from the spec, §4.1 "Equality"). -/
def valueBeq : ValueData → ValueData → Bool
  | .VNull, .VNull => true
  | .VUndefined, .VUndefined => true
  | .VNumber a, .VNumber b => a = b
  | .VInteger a, .VInteger b => a = b
  | .VString a, .VString b => a = b
  | .VBoolean a, .VBoolean b => a = b
  | .VObject a, .VObject b => a = b
  | .VFunction a, .VFunction b => a = b
  | _, _ => false

/-- The `value.borrow() == &VUndefined` test in the `LocalExpr` arm. -/
def isUndefined : ValueData → Bool
  | .VUndefined => true
  | _ => false

/-- The scope-walk of the `LocalExpr` arm: `for scope in
self.scopes.iter().rev() { ... break }` — the value of the nearest binding,
`VUndefined` when no scope binds the name. -/
def scopeLookup : List ObjectData → String → ValueData
  | [], _ => .VUndefined
  | s :: rest, name =>
      match odFind s name with
      | some pr => pr.value
      | none => scopeLookup rest name

/-- Modelled from the spec: parameter binding of the regular-call protocol
(spec §4.1): "bind each formal parameter to the corresponding actual; extra
actuals are dropped; missing actuals bind Undefined". -/
def bindParams : List String → List ValueData → ObjectData
  | [], _ => []
  | p :: ps, [] => (p, Property.mk .VUndefined) :: bindParams ps []
  | p :: ps, a :: rest => (p, Property.mk a) :: bindParams ps rest

/-- The outcome of evaluating one expression: `Ok` / `Err` of the source's
`ResultValue`, plus `crash` for a `fail!`/`.unwrap()` abort and `timeout`
for exhausted fuel (model artifact only). -/
inductive Outcome where
  | ok (v : ValueData)
  | thrown (v : ValueData)
  | crash
  | timeout
deriving DecidableEq, Repr

/-! ## The evaluator (`Interpreter::run`, src/src/exec.rs lines 65-269).
`run` takes a fuel parameter bounding the recursion depth; list iterations do
not consume fuel.  `callFunction` is the regular-call protocol, modelled from
the spec (§4.1) because `js/function.rs` is not under src/: push a scope
binding the formals and `this`, run the body, pop the scope on every exit
path.  The source's `ResultValue` has no separate `Returned` variant, so a
call's result is the body's result. -/

/-! Each helper takes the evaluator for proper subexpressions as `ev`
(instantiated with `run fuel` below, so the fuel bounds the nesting depth
while list iteration is unbounded, like the source's loops). -/

/-- The `BlockExpr` loop.  The source updates its accumulator `obj` only on
the iteration whose expression equals `es.last().unwrap()`; the final
iteration always does (the derived equality is reflexive in this model, whose
numbers are `ℚ`), and `obj` is read only after the loop, so keeping the
running value is observationally equal. -/
def runBlock (ev : Interpreter → Expr → Outcome × Interpreter) :
    Interpreter → ValueData → List Expr → Outcome × Interpreter
  | I, obj, [] => (.ok obj, I)
  | I, _, e :: rest =>
    match ev I e with
    | (.ok v, I1) => runBlock ev I1 v rest
    | (.thrown t, I1) => (.thrown t, I1)
    | (.crash, I1) => (.crash, I1)
    | (.timeout, I1) => (.timeout, I1)

def runArgs (ev : Interpreter → Expr → Outcome × Interpreter) :
    Interpreter → List Expr → (Outcome ⊕ List ValueData) × Interpreter
  | I, [] => (.inr [], I)
  | I, e :: rest =>
    match ev I e with
    | (.ok v, I1) =>
      match runArgs ev I1 rest with
      | (.inr vs, I2) => (.inr (v :: vs), I2)
      | (.inl o, I2) => (.inl o, I2)
    | (.thrown t, I1) => (.inl (.thrown t), I1)
    | (.crash, I1) => (.inl .crash, I1)
    | (.timeout, I1) => (.inl .timeout, I1)

/-- One case block of the `SwitchExpr` loop; like `runBlock`, the source's
`if expr == last_expr` accumulator update is kept positionally. -/
def runCaseBlock (ev : Interpreter → Expr → Outcome × Interpreter) :
    Interpreter → ValueData → List Expr → (Outcome ⊕ ValueData) × Interpreter
  | I, result, [] => (.inr result, I)
  | I, _, e :: rest =>
    match ev I e with
    | (.ok v, I1) => runCaseBlock ev I1 v rest
    | (.thrown t, I1) => (.inl (.thrown t), I1)
    | (.crash, I1) => (.inl .crash, I1)
    | (.timeout, I1) => (.inl .timeout, I1)

def runCases (ev : Interpreter → Expr → Outcome × Interpreter) :
    Interpreter → ValueData → List (Expr × List Expr) → ValueData → Bool →
      (Outcome ⊕ (ValueData × Bool)) × Interpreter
  | I, _, [], result, matched => (.inr (result, matched), I)
  | I, val, (cond, block) :: rest, result, matched =>
    match ev I cond with
    | (.ok cv, I1) =>
      if valueBeq val cv then
        match block with
        | [] => (.inl .crash, I1)
        | _ :: _ =>
          match runCaseBlock ev I1 result block with
          | (.inr result2, I2) => runCases ev I2 val rest result2 true
          | (.inl o, I2) => (.inl o, I2)
      else runCases ev I1 val rest result matched
    | (.thrown t, I1) => (.inl (.thrown t), I1)
    | (.crash, I1) => (.inl .crash, I1)
    | (.timeout, I1) => (.inl .timeout, I1)

def runObjectFields (ev : Interpreter → Expr → Outcome × Interpreter) :
    Interpreter → Nat → List (String × Expr) → Option Outcome × Interpreter
  | I, _, [] => (none, I)
  | I, p, (k, vE) :: rest =>
    match ev I vE with
    | (.ok v, I1) => runObjectFields ev (setField I1 (.VObject p) k v) p rest
    | (.thrown t, I1) => (some (.thrown t), I1)
    | (.crash, I1) => (some .crash, I1)
    | (.timeout, I1) => (some .timeout, I1)

/-- Modelled from the spec: the regular-call protocol of §4.1
(`js/function.rs` is not under src/): push a scope binding the formals and
`this`, evaluate the body, pop the scope on every exit path.  The source's
`ResultValue` has no separate `Returned` variant, so the call's result is the
body's result. -/
def callFunction (ev : Interpreter → Expr → Outcome × Interpreter) (I : Interpreter)
    (params : List String) (body : Expr) (this : ValueData) (actuals : List ValueData) :
    Outcome × Interpreter :=
  let scope := odInsert (bindParams params actuals) "this" (Property.mk this)
  let I1 := { I with scopes := scope :: I.scopes }
  match ev I1 body with
  | (r, I2) => (r, { I2 with scopes := I2.scopes.tail })

/-- The `match *func.borrow() { VFunction(..) => call, _ => Err(VUndefined) }`
tail of the `CallExpr` arm. -/
def invoke (ev : Interpreter → Expr → Outcome × Interpreter) (I : Interpreter)
    (this func : ValueData) (vArgs : List ValueData) : Outcome × Interpreter :=
  match func with
  | .VFunction fp =>
    match I.funcHeap[fp]? with
    | some fn => callFunction ev I fn.args fn.expr this vArgs
    | none => (.crash, I)
  | _ => (.thrown .VUndefined, I)

/-- The body of `Interpreter::run` (src/src/exec.rs lines 65-269), one match
arm per expression variant; `ev` evaluates proper subexpressions. -/
def runStep (ev : Interpreter → Expr → Outcome × Interpreter) (I : Interpreter) :
    Expr → Outcome × Interpreter
  | .ConstExpr .CNull => (.ok .VNull, I)
  | .ConstExpr .CUndefined => (.ok .VUndefined, I)
  | .ConstExpr (.CNum num) => (.ok (to_value num), I)
  | .ConstExpr (.CInt num) => (.ok (to_value (num : ℚ)), I)
  | .ConstExpr (.CString s) => (.ok (.VString s), I)
  | .ConstExpr (.CBool b) => (.ok (.VBoolean b), I)
  | .ConstExpr (.CRegExp _ _ _) => (.ok (.VBoolean true), I)
  | .BlockExpr es =>
    match es with
    | [] => (.ok .VNull, I)
    | _ :: _ => runBlock ev I .VNull es
  | .LocalExpr name =>
    let value := scopeLookup I.scopes name
    (.ok (if isUndefined value then getField I I.global name else value), I)
  | .GetConstFieldExpr obj field =>
    match ev I obj with
    | (.ok v, I1) => (.ok (getField I1 v field), I1)
    | (.thrown t, I1) => (.thrown t, I1)
    | (.crash, I1) => (.crash, I1)
    | (.timeout, I1) => (.timeout, I1)
  | .GetFieldExpr obj field =>
    match ev I obj with
    | (.ok v, I1) =>
      match ev I1 field with
      | (.ok fv, I2) => (.ok (getField I2 v (to_str fv)), I2)
      | (.thrown t, I2) => (.thrown t, I2)
      | (.crash, I2) => (.crash, I2)
      | (.timeout, I2) => (.timeout, I2)
    | (.thrown t, I1) => (.thrown t, I1)
    | (.crash, I1) => (.crash, I1)
    | (.timeout, I1) => (.timeout, I1)
  | .CallExpr callee args =>
    match callee with
    | .GetConstFieldExpr obj field =>
      match ev I obj with
      | (.ok ov, I1) =>
        match runArgs ev I1 args with
        | (.inr vArgs, I2) => invoke ev I2 ov (getField I1 ov field) vArgs
        | (.inl o, I2) => (o, I2)
      | (.thrown t, I1) => (.thrown t, I1)
      | (.crash, I1) => (.crash, I1)
      | (.timeout, I1) => (.timeout, I1)
    | .GetFieldExpr obj fieldE =>
      match ev I obj with
      | (.ok ov, I1) =>
        match ev I1 fieldE with
        | (.ok fv, I2) =>
          match runArgs ev I2 args with
          | (.inr vArgs, I3) => invoke ev I3 ov (getField I2 ov (to_str fv)) vArgs
          | (.inl o, I3) => (o, I3)
        | (.thrown t, I2) => (.thrown t, I2)
        | (.crash, I2) => (.crash, I2)
        | (.timeout, I2) => (.timeout, I2)
      | (.thrown t, I1) => (.thrown t, I1)
      | (.crash, I1) => (.crash, I1)
      | (.timeout, I1) => (.timeout, I1)
    | _ =>
      match ev I callee with
      | (.ok fv, I1) =>
        match runArgs ev I1 args with
        | (.inr vArgs, I2) => invoke ev I2 I.global fv vArgs
        | (.inl o, I2) => (o, I2)
      | (.thrown t, I1) => (.thrown t, I1)
      | (.crash, I1) => (.crash, I1)
      | (.timeout, I1) => (.timeout, I1)
  | .SwitchExpr discE branches deflt =>
    match ev I discE with
    | (.ok val, I1) =>
      match runCases ev I1 val branches .VNull false with
      | (.inr (result, matched), I2) =>
        match matched, deflt with
        | false, some d =>
          match ev I2 d with
          | (.ok r2, I3) => (.ok r2, I3)
          | (.thrown t, I3) => (.thrown t, I3)
          | (.crash, I3) => (.crash, I3)
          | (.timeout, I3) => (.timeout, I3)
        | true, _ => (.ok result, I2)
        | false, none => (.ok result, I2)
      | (.inl o, I2) => (o, I2)
    | (.thrown t, I1) => (.thrown t, I1)
    | (.crash, I1) => (.crash, I1)
    | (.timeout, I1) => (.timeout, I1)
  | .ObjectDeclExpr fields =>
    match runObjectFields ev { I with heap := I.heap ++ [[]] } I.heap.length fields with
    | (none, I2) =>
      let I3 := setField I2 (.VObject I.heap.length) "__proto__"
        (getField I2 (getField I2 I2.global "Object") "prototype")
      (.ok (.VObject I.heap.length), I3)
    | (some o, I2) => (o, I2)
  | .FunctionDeclExpr name args body =>
    let fp := I.funcHeap.length
    let I1 := { I with funcHeap := I.funcHeap ++ [FunctionRec.mk args body] }
    match name with
    | some n => (.ok (.VFunction fp), setField I1 I1.global n (.VFunction fp))
    | none => (.ok (.VFunction fp), I1)
  | .ConstructExpr callee args =>
    match ev I callee with
    | (.ok func, I1) =>
      match runArgs ev I1 args with
      | (.inr vArgs, I2) =>
        let p := I2.heap.length
        let I3 := { I2 with heap := I2.heap ++ [[]] }
        let I4 := setField I3 (.VObject p) "__proto__" (getField I3 func "prototype")
        match func with
        | .VFunction fp =>
          match I4.funcHeap[fp]? with
          | some fn =>
            match callFunction ev I4 fn.args fn.expr (.VObject p) vArgs with
            | (.ok _, I5) => (.ok (.VObject p), I5)
            | (.thrown _, I5) => (.crash, I5)
            | (.crash, I5) => (.crash, I5)
            | (.timeout, I5) => (.timeout, I5)
          | none => (.crash, I4)
        | .VNull => (.ok .VUndefined, I4)
        | .VUndefined => (.ok .VUndefined, I4)
        | .VNumber _ => (.ok .VUndefined, I4)
        | .VInteger _ => (.ok .VUndefined, I4)
        | .VString _ => (.ok .VUndefined, I4)
        | .VBoolean _ => (.ok .VUndefined, I4)
        | .VObject _ => (.ok .VUndefined, I4)
      | (.inl o, I2) => (o, I2)
    | (.thrown t, I1) => (.thrown t, I1)
    | (.crash, I1) => (.crash, I1)
    | (.timeout, I1) => (.timeout, I1)
  | .ReturnExpr (some v) => ev I v
  | .ReturnExpr none => (.ok .VUndefined, I)
  | .ThrowExpr ex =>
    match ev I ex with
    | (.ok v, I1) => (.thrown v, I1)
    | (.thrown t, I1) => (.thrown t, I1)
    | (.crash, I1) => (.crash, I1)
    | (.timeout, I1) => (.timeout, I1)
  | .AssignExpr target valE =>
    match ev I valE with
    | (.ok v, I1) =>
      match target with
      | .LocalExpr name => (.ok v, setField I1 I1.global name v)
      | .GetConstFieldExpr obj field =>
        match ev I1 obj with
        | (.ok ov, I2) => (.ok v, setField I2 ov field v)
        | (.thrown t, I2) => (.thrown t, I2)
        | (.crash, I2) => (.crash, I2)
        | (.timeout, I2) => (.timeout, I2)
      | _ => (.ok v, I1)
    | (.thrown t, I1) => (.thrown t, I1)
    | (.crash, I1) => (.crash, I1)
    | (.timeout, I1) => (.timeout, I1)

/-- `Interpreter::run` with a fuel bound on expression-nesting depth. -/
def run : Nat → Interpreter → Expr → Outcome × Interpreter
  | 0, I, _ => (.timeout, I)
  | fuel + 1, I, e => runStep (run fuel) I e

/-! ## The `Executor` interface (src/src/exec.rs lines 14-64).
`Interpreter::new` installs the built-in modules (`console`, `Math`, ...) on
the global object; those initializers are external collaborators (spec §6)
and are not modelled, so the model's fresh global object starts empty. -/

def Interpreter.new : Interpreter :=
  { global := .VObject 0, scopes := [], heap := [[]], funcHeap := [] }

def Interpreter.set_global (I : Interpreter) (name : String) (val : ValueData) : Interpreter :=
  setField I I.global name val

def Interpreter.get_global (I : Interpreter) (name : String) : ValueData :=
  getField I I.global name

def Interpreter.make_scope (I : Interpreter) : Interpreter :=
  { I with scopes := [] :: I.scopes }

def Interpreter.destroy_scope (I : Interpreter) : Interpreter :=
  { I with scopes := I.scopes.tail }

/-! ## Lexer (src/src/lexer.rs).
The lexer is modelled as a pure step function over the character list.  The
source's `peek` always reads a fresh character from the underlying buffer
into the one-character register `current_char` (it never consults the
register), so a second `peek` within one dispatch discards the first peeked
character; `lexStep` returns how many characters of the remaining stream the
dispatch consumed through the register.  `none` models both a `fail!` abort
and `lex_str`'s `.unwrap()` on an I/O error (end of stream while an escape
reads its digits). -/

inductive StringType where
  | DoubleQuote
  | SingleQuote
deriving DecidableEq, Repr

inductive CommentType where
  | MultiLineComment
  | SingleLineComment
deriving DecidableEq, Repr

inductive NumberType where
  | DecimalNumber
  | HexadecimalNumber
  | OctalNumber
deriving DecidableEq, Repr

inductive TokenData where
  | TIdent (s : String)
  | TNumber (n : ℚ)
  | TString (s : String)
  | TComment (s : String)
  | TSemicolon
  | TColon
  | TDot
  | TEqual
  | TOpenParen
  | TCloseParen
  | TComma
  | TOpenBlock
  | TCloseBlock
  | TOpenArray
  | TCloseArray
  | TQuestion
  | TArrow
  | TNumOp (op : NumOp)
  | TBitOp (op : BitOp)
  | TCompOp (op : CompOp)
  | TLogOp (op : LogOp)
deriving DecidableEq, Repr

/-- `Token::new(data, line, column)`. -/
structure Token where
  data : TokenData
  line : Nat
  column : Nat
deriving DecidableEq, Repr

/-- The `Lexer` struct's mutable state (buffers as character lists). -/
structure LexerState where
  tokens : List Token
  identBuffer : List Char
  stringBuffer : List Char
  commentBuffer : List Char
  numBuffer : List Char
  stringStart : Option StringType
  currentComment : Option CommentType
  currentNumber : Option NumberType
  escaped : Bool
  lineNumber : Nat
  columnNumber : Nat
deriving DecidableEq, Repr

/-- `Lexer::new`: empty buffers, line 1, column 0. -/
def Lexer.new : LexerState :=
  { tokens := [], identBuffer := [], stringBuffer := [], commentBuffer := [],
    numBuffer := [], stringStart := none, currentComment := none,
    currentNumber := none, escaped := false, lineNumber := 1, columnNumber := 0 }

/-- `Lexer::push_token`: append a token carrying the current position. -/
def pushToken (st : LexerState) (tk : TokenData) : LexerState :=
  { st with tokens := st.tokens ++ [Token.mk tk st.lineNumber st.columnNumber] }

def pushStr (st : LexerState) (c : Char) : LexerState :=
  { st with stringBuffer := st.stringBuffer ++ [c] }

/-- The single-line / multi-line comment close: emit `TComment`, clear. -/
def finishComment (st : LexerState) : LexerState :=
  { pushToken st (.TComment (String.mk st.commentBuffer)) with
      commentBuffer := [], currentComment := none }

/-- A string close: emit `TString`, clear. -/
def finishString (st : LexerState) : LexerState :=
  { pushToken st (.TString (String.mk st.stringBuffer)) with
      stringBuffer := [], stringStart := none }

def digitVal (c : Char) : Option Nat :=
  if '0' ≤ c ∧ c ≤ '9' then some (c.toNat - '0'.toNat)
  else if 'a' ≤ c ∧ c ≤ 'f' then some (c.toNat - 'a'.toNat + 10)
  else if 'A' ≤ c ∧ c ≤ 'F' then some (c.toNat - 'A'.toNat + 10)
  else none

def digitsValAux (radix : Nat) (acc : Nat) : List Char → Option Nat
  | [] => some acc
  | c :: rest =>
    match digitVal c with
    | some d => if d < radix then digitsValAux radix (acc * radix + d) rest else none
    | none => none

/-- `from_str_radix::<u32>` on the escape digit buffers (std library
behavior, modelled from the spec: digits of the given radix; a non-digit,
an empty buffer or overflow yields `None`). -/
def parseRadixNat (cs : List Char) (radix : Nat) : Option Nat :=
  if cs = [] then none
  else
    match digitsValAux radix 0 cs with
    | some v => if v < 4294967296 then some v else none
    | none => none

/-- `from_str_radix::<f64>` on the number buffers, modelled from the spec
("parse the digit buffer with the appropriate radix"): digits of the radix
with at most one dot; every literal in the claims is integral, which `f64`
represents exactly. -/
def parseRadixQ (cs : List Char) (radix : Nat) : Option ℚ :=
  let intPart := cs.takeWhile (fun c => c ≠ '.')
  match cs.dropWhile (fun c => c ≠ '.') with
  | [] =>
    match digitsValAux radix 0 intPart with
    | some v => if intPart = [] then none else some (v : ℚ)
    | none => none
  | _ :: frac =>
    if frac.contains '.' then none
    else
      match digitsValAux radix 0 intPart, digitsValAux radix 0 frac with
      | some iv, some fv =>
        if intPart = [] ∧ frac = [] then none
        else some ((iv : ℚ) + (fv : ℚ) / (radix : ℚ) ^ frac.length)
      | _, _ => none

/-- `std::char::from_u32` validity: not a surrogate and at most 0x10FFFF. -/
def isValidScalar (n : Nat) : Bool :=
  n < 55296 ∨ (57343 < n ∧ n ≤ 1114111)

/-- The payload of a `\xHH` / `\uHHHH` escape: an unparsable digit group
falls back to 0 (`None => 0` in the source), then `from_u32`; a value that
is not a Unicode scalar is fatal (`none`). -/
def escapeHexChar (cs : List Char) : Option Char :=
  let asNum := (parseRadixNat cs 16).getD 0
  if isValidScalar asNum then some (Char.ofNat asNum) else none

/-- The first half of `Lexer::clear_buffer`: emit a pending identifier. -/
def flushIdent (st : LexerState) : LexerState :=
  if st.identBuffer.isEmpty then st
  else { pushToken st (.TIdent (String.mk st.identBuffer)) with identBuffer := [] }

/-- The radix selected by `clear_buffer` for the pending number kind. -/
def numberRadix : NumberType → Nat
  | .HexadecimalNumber => 16
  | .OctalNumber => 8
  | .DecimalNumber => 10

/-- The second half of `Lexer::clear_buffer`: parse and emit a pending
number; a parse failure is fatal. -/
def flushNumber (st : LexerState) : Option LexerState :=
  match st.currentNumber with
  | none => some st
  | some nt =>
    match parseRadixQ st.numBuffer (numberRadix nt) with
    | some q => some { pushToken st (.TNumber q) with numBuffer := [], currentNumber := none }
    | none => none

/-- `Lexer::clear_buffer` (src/src/lexer.rs lines 89-109): flush a pending
identifier, then a pending number parsed with its radix. -/
def clearBuffer (st : LexerState) : Option LexerState :=
  flushNumber (flushIdent st)

/-- `clear_buffer` followed by `push_token`, the shape of every punctuation
and operator arm; `k` is the register consumption of the arm's `peek`s. -/
def emitAfterClear (st : LexerState) (tk : TokenData) (k : Nat) : Option (LexerState × Nat) :=
  match clearBuffer st with
  | some st2 => some (pushToken st2 tk, k)
  | none => none

/-! The dispatch of one `Lexer::lex` iteration is factored into small
groups of consecutive source arms, each falling through to the next group
in its final else — together they are exactly the source's single match
(src/src/lexer.rs lines 145-392), in arm order.  The `Nat` each group
returns is how many characters of `rest` the arm's `peek`s consumed through
the lookahead register: the source's `peek` always reads a fresh character
from the buffer into the register, so a second `peek` in one dispatch
discards the first peeked character. -/

/-- The `\n`, `\r`, other-whitespace and identifier arms.  `\n` flushes the
buffers, then increments the line and resets the column; `\r` resets the
column only.  Lean's `Char.isWhitespace` stands in for
`std::char::is_whitespace` (they agree on ASCII; no claim involves exotic
Unicode whitespace). -/
def dispatchEnd (st : LexerState) (c : Char) : Option (LexerState × Nat) :=
  if c = '\n' then
    match clearBuffer st with
    | some st2 => some ({ st2 with lineNumber := st2.lineNumber + 1, columnNumber := 0 }, 0)
    | none => none
  else if c = '\r' then
    match clearBuffer st with
    | some st2 => some ({ st2 with columnNumber := 0 }, 0)
    | none => none
  else if c.isWhitespace then
    match clearBuffer st with
    | some st2 => some (st2, 0)
    | none => none
  else some ({ st with identBuffer := st.identBuffer ++ [c] }, 0)

/-- The `< > !` comparison arms (one `peek` each; a bare `!` has no arm of
its own and falls through to the identifier arm). -/
def dispatchComp (st : LexerState) (c : Char) (rest : List Char) : Option (LexerState × Nat) :=
  if c = '<' then
    if rest.head? = some '=' then emitAfterClear st (.TCompOp .CompLessThanOrEqual) 1
    else emitAfterClear st (.TCompOp .CompLessThan) 0
  else if c = '>' then
    if rest.head? = some '=' then emitAfterClear st (.TCompOp .CompGreaterThanOrEqual) 1
    else emitAfterClear st (.TCompOp .CompGreaterThan) 0
  else if c = '!' ∧ rest.head? = some '=' then emitAfterClear st (.TCompOp .CompNotEqual) 1
  else dispatchEnd st c

/-- The `=` arm: its guards `peek` twice, so after a failed `=>` check the
second `peek` reads the character after the peeked one (discarding it) to
check for `==`. -/
def dispatchEq (st : LexerState) (c : Char) (rest : List Char) : Option (LexerState × Nat) :=
  if c = '=' then
    if rest.head? = some '>' then emitAfterClear st .TArrow 1
    else if 2 ≤ rest.length then
      if rest[1]? = some '=' then emitAfterClear st (.TCompOp .CompEqual) 2
      else emitAfterClear st .TEqual 1
    else emitAfterClear st .TEqual 0
  else dispatchComp st c rest

/-- The `| & ^` arms (one `peek` each for `||` and `&&`). -/
def dispatchBitOps (st : LexerState) (c : Char) (rest : List Char) : Option (LexerState × Nat) :=
  if c = '|' then
    if rest.head? = some '|' then emitAfterClear st (.TLogOp .LogOr) 1
    else emitAfterClear st (.TBitOp .BitOr) 0
  else if c = '&' then
    if rest.head? = some '&' then emitAfterClear st (.TLogOp .LogAnd) 1
    else emitAfterClear st (.TBitOp .BitAnd) 0
  else if c = '^' then emitAfterClear st (.TBitOp .BitXor) 0
  else dispatchEq st c rest

/-- The `* + - %` arms. -/
def dispatchNumOps (st : LexerState) (c : Char) (rest : List Char) : Option (LexerState × Nat) :=
  if c = '*' then emitAfterClear st (.TNumOp .OpMul) 0
  else if c = '+' then emitAfterClear st (.TNumOp .OpAdd) 0
  else if c = '-' then emitAfterClear st (.TNumOp .OpSub) 0
  else if c = '%' then emitAfterClear st (.TNumOp .OpMod) 0
  else dispatchBitOps st c rest

/-- The `/` arm: its first `peek` opens a line comment; a failed first
`peek` leaves its character in the register, and the second `peek` reads the
character after it (discarding the first) to check for a block comment. -/
def dispatchSlash (st : LexerState) (c : Char) (rest : List Char) : Option (LexerState × Nat) :=
  if c = '/' then
    if rest.head? = some '/' then some ({ st with currentComment := some .SingleLineComment }, 1)
    else if 2 ≤ rest.length then
      if rest[1]? = some '*' then some ({ st with currentComment := some .MultiLineComment }, 2)
      else emitAfterClear st (.TNumOp .OpDiv) 1
    else emitAfterClear st (.TNumOp .OpDiv) 0
  else dispatchNumOps st c rest

/-- Punctuation arms `{ } [ ] ?`. -/
def dispatchPunct2 (st : LexerState) (c : Char) (rest : List Char) : Option (LexerState × Nat) :=
  if c = '{' then emitAfterClear st .TOpenBlock 0
  else if c = '}' then emitAfterClear st .TCloseBlock 0
  else if c = '[' then emitAfterClear st .TOpenArray 0
  else if c = ']' then emitAfterClear st .TCloseArray 0
  else if c = '?' then emitAfterClear st .TQuestion 0
  else dispatchSlash st c rest

/-- Punctuation arms `; : . ( ) ,`. -/
def dispatchPunct (st : LexerState) (c : Char) (rest : List Char) : Option (LexerState × Nat) :=
  if c = ';' then emitAfterClear st .TSemicolon 0
  else if c = ':' then emitAfterClear st .TColon 0
  else if c = '.' then emitAfterClear st .TDot 0
  else if c = '(' then emitAfterClear st .TOpenParen 0
  else if c = ')' then emitAfterClear st .TCloseParen 0
  else if c = ',' then emitAfterClear st .TComma 0
  else dispatchPunct2 st c rest

/-- Decimal start, single-quote string open, and the dot-in-number arm. -/
def dispatchNumber2 (st : LexerState) (c : Char) (rest : List Char) : Option (LexerState × Nat) :=
  if ('0' ≤ c ∧ c ≤ '9') ∧ st.identBuffer = [] then
    some ({ st with numBuffer := st.numBuffer ++ [c], currentNumber := some .DecimalNumber }, 0)
  else if c = '\'' ∧ st.stringStart = none then
    some ({ st with stringStart := some .SingleQuote }, 0)
  else if c = '.' ∧ st.currentNumber.isSome ∧ ¬ st.numBuffer.contains '.' then
    some ({ st with numBuffer := st.numBuffer ++ [c], currentNumber := some .DecimalNumber }, 0)
  else dispatchPunct st c rest

/-- Number arms: `0x` (one `peek`), octal start, octal digits, octal-to-
decimal promotion, hex digits. -/
def dispatchNumber (st : LexerState) (c : Char) (rest : List Char) : Option (LexerState × Nat) :=
  if c = '0' ∧ rest.head? = some 'x' then
    some ({ st with currentNumber := some .HexadecimalNumber }, 1)
  else if c = '0' ∧ st.identBuffer = [] ∧ st.currentNumber = none then
    some ({ st with numBuffer := st.numBuffer ++ [c], currentNumber := some .OctalNumber }, 0)
  else if ('0' ≤ c ∧ c ≤ '7') ∧ st.currentNumber = some .OctalNumber then
    some ({ st with numBuffer := st.numBuffer ++ [c] }, 0)
  else if (c = '8' ∨ c = '9') ∧ st.currentNumber = some .OctalNumber then
    some ({ st with numBuffer := st.numBuffer ++ [c], currentNumber := some .DecimalNumber }, 0)
  else if (('0' ≤ c ∧ c ≤ '9') ∨ ('A' ≤ c ∧ c ≤ 'F') ∨ ('a' ≤ c ∧ c ≤ 'f')) ∧
      st.currentNumber = some .HexadecimalNumber then
    some ({ st with numBuffer := st.numBuffer ++ [c] }, 0)
  else dispatchNumber2 st c rest

/-- String arms: close, backslash, append, and double-quote open. -/
def dispatchString (st : LexerState) (c : Char) (rest : List Char) : Option (LexerState × Nat) :=
  if c = '"' ∧ st.stringStart = some .DoubleQuote then some (finishString st, 0)
  else if c = '\'' ∧ st.stringStart = some .SingleQuote then some (finishString st, 0)
  else if c = '\\' ∧ st.stringStart.isSome then some ({ st with escaped := true }, 0)
  else if st.stringStart.isSome then some (pushStr st c, 0)
  else if c = '"' ∧ st.stringStart = none then
    some ({ st with stringStart := some .DoubleQuote }, 0)
  else dispatchNumber st c rest

/-- Comment arms: single-line close on newline, multi-line close on `*/`
(one `peek`), and the append arm. -/
def dispatchComment (st : LexerState) (c : Char) (rest : List Char) : Option (LexerState × Nat) :=
  if c = '\n' ∧ st.currentComment = some .SingleLineComment then
    some (finishComment st, 0)
  else if c = '*' ∧ st.currentComment = some .MultiLineComment ∧ rest.head? = some '/' then
    some (finishComment st, 1)
  else if st.currentComment.isSome then
    some ({ st with commentBuffer := st.commentBuffer ++ [c] }, 0)
  else dispatchString st c rest

/-- Escape arms for `\\uHHHH`, quote escapes in a matching string, and the
fatal catch-all. -/
def escapeStepC (st : LexerState) (c : Char) (rest : List Char) : Option (LexerState × Nat) :=
  if c = 'u' then
    if rest.length < 4 then none
    else
      match escapeHexChar (rest.take 4) with
      | some ec => some (pushStr { st with columnNumber := st.columnNumber + 4 } ec, 4)
      | none => none
  else if c = '\'' ∧ st.stringStart = some .SingleQuote then some (pushStr st '\'', 0)
  else if c = '"' ∧ st.stringStart = some .DoubleQuote then some (pushStr st '"', 0)
  else none

/-- Escape arms for `\\0` and `\\xHH` (two digits read straight from the
stream, advancing the column by 2). -/
def escapeStepB (st : LexerState) (c : Char) (rest : List Char) : Option (LexerState × Nat) :=
  if c = '0' then some (pushStr st (Char.ofNat 0), 0)
  else if c = 'x' then
    if rest.length < 2 then none
    else
      match escapeHexChar (rest.take 2) with
      | some ec => some (pushStr { st with columnNumber := st.columnNumber + 2 } ec, 2)
      | none => none
  else escapeStepC st c rest

/-- Escape arms for `\\n \\r \\t \\b \\f` and line continuation. -/
def escapeStepA (st : LexerState) (c : Char) (rest : List Char) : Option (LexerState × Nat) :=
  if c = '\n' then some (st, 0)
  else if c = 'n' then some (pushStr st '\n', 0)
  else if c = 'r' then some (pushStr st '\r', 0)
  else if c = 't' then some (pushStr st '\t', 0)
  else if c = 'b' then some (pushStr st (Char.ofNat 8), 0)
  else if c = 'f' then some (pushStr st (Char.ofNat 12), 0)
  else escapeStepB st c rest

/-- One iteration of the `Lexer::lex` loop (src/src/lexer.rs lines
137-394): `column_number` is incremented once at the top (characters
absorbed through the lookahead register do not pass through the loop),
then the dispatch runs, the escaped arm first. -/
def lexStep (st0 : LexerState) (c : Char) (rest : List Char) : Option (LexerState × Nat) :=
  if st0.escaped then
    escapeStepA { st0 with columnNumber := st0.columnNumber + 1, escaped := false } c rest
  else dispatchComment { st0 with columnNumber := st0.columnNumber + 1 } c rest

/-- The `Lexer::lex` loop with an explicit step budget (each iteration
consumes at least the dispatched character, so `cs.length` steps always
suffice); a final `clear_buffer` flushes trailing identifiers and numbers. -/
def lexRunAux : Nat → LexerState → List Char → Option LexerState
  | _, st, [] => clearBuffer st
  | 0, _, _ :: _ => none
  | fuel + 1, st, c :: rest =>
    match lexStep st c rest with
    | some (st2, k) => lexRunAux fuel st2 (rest.drop k)
    | none => none

def lexRun (st : LexerState) (cs : List Char) : Option LexerState :=
  lexRunAux cs.length st cs

/-- `Lexer::lex_str`: lex an in-memory string and return the tokens. -/
def lexStr (script : String) : Option (List Token) :=
  (lexRun Lexer.new script.data).map (fun st => st.tokens)

/-- The position invariant carried by the lexer state: the current line is
at least 1 and every emitted token's line is at least 1. -/
def TokensOk (st : LexerState) : Prop :=
  1 ≤ st.lineNumber ∧ ∀ t ∈ st.tokens, 1 ≤ t.line

/-! ## Concrete programs and states used by the claim theorems. -/

/-- `(function(x){ x = 1; x })(5)`: during the assignment the callee's scope
binds `x` (to the actual 5). -/
def c1expr : Expr :=
  .CallExpr (.FunctionDeclExpr none ["x"]
    (.BlockExpr [.AssignExpr (.LocalExpr "x") (.ConstExpr (.CNum 1)), .LocalExpr "x"]))
    [.ConstExpr (.CNum 5)]

/-- `x = 42; (function(x){ x })()`: the zero-argument call binds the
parameter `x` to Undefined in the new scope while the global `x` holds 42. -/
def c2expr : Expr :=
  .BlockExpr [.AssignExpr (.LocalExpr "x") (.ConstExpr (.CNum 42)),
    .CallExpr (.FunctionDeclExpr none ["x"] (.LocalExpr "x")) []]

/-- A state whose scope stack binds `x` to 3 (the shape `make_scope` plus a
parameter binding produce). -/
def scopedState : Interpreter :=
  { Interpreter.new with scopes := [[("x", Property.mk (.VNumber 3))]] }

/-- `new (function(){ throw null })()`: the constructor call throws. -/
def c4expr : Expr :=
  .ConstructExpr (.FunctionDeclExpr none [] (.ThrowExpr (.ConstExpr .CNull))) []

/-- `new (function(){ 3 })()`: the constructor call returns normally. -/
def c4okexpr : Expr :=
  .ConstructExpr (.FunctionDeclExpr none [] (.ConstExpr (.CNum 3))) []

/-- `o = {a: 1}; o["a"] = 2; o.a`. -/
def c6expr : Expr :=
  .BlockExpr [
    .AssignExpr (.LocalExpr "o") (.ObjectDeclExpr [("a", .ConstExpr (.CNum 1))]),
    .AssignExpr (.GetFieldExpr (.LocalExpr "o") (.ConstExpr (.CString "a")))
      (.ConstExpr (.CNum 2)),
    .GetConstFieldExpr (.LocalExpr "o") "a"]

/-- A switch on `flag` whose first and third cases match, whose second case
has a matching side effect in its (non-matching) case expression, and which
has a default: `switch(flag){ case flag: x = 1; case (c = !flag): w = 4;
case flag: y = 2; 7; default: z = 9 }`. -/
def c9switch (flag : Bool) : Expr :=
  .SwitchExpr (.ConstExpr (.CBool flag))
    [ (.ConstExpr (.CBool flag), [.AssignExpr (.LocalExpr "x") (.ConstExpr (.CNum 1))]),
      (.AssignExpr (.LocalExpr "c") (.ConstExpr (.CBool (!flag))),
        [.AssignExpr (.LocalExpr "w") (.ConstExpr (.CNum 4))]),
      (.ConstExpr (.CBool flag),
        [.AssignExpr (.LocalExpr "y") (.ConstExpr (.CNum 2)), .ConstExpr (.CNum 7)]) ]
    (some (.AssignExpr (.LocalExpr "z") (.ConstExpr (.CNum 9))))

/-- A switch with no matching case and a default. -/
def c9nomatch (flag : Bool) : Expr :=
  .SwitchExpr (.ConstExpr (.CBool flag))
    [ (.ConstExpr (.CBool (!flag)), [.AssignExpr (.LocalExpr "x") (.ConstExpr (.CNum 1))]) ]
    (some (.AssignExpr (.LocalExpr "z") (.ConstExpr (.CNum 9))))

/-- The callee shapes the `CallExpr` arm resolves through a field access. -/
def isFieldAccess : Expr → Bool
  | .GetConstFieldExpr _ _ => true
  | .GetFieldExpr _ _ => true
  | _ => false

/-- Whether a value is a `VFunction` handle. -/
def isFunction : ValueData → Bool
  | .VFunction _ => true
  | _ => false

/-! ## Helper lemmas about the object model. -/

theorem getD_set_self {α : Type} (l : List α) (p : Nat) (a d : α) (h : p < l.length) :
    (l.set p a).getD p d = a := by
  induction l generalizing p with
  | nil => simp at h
  | cons x xs ih =>
    cases p with
    | zero => simp
    | succ n =>
      simp only [List.set_cons_succ, List.getD, List.getElem?_cons_succ]
      exact ih n (by simpa using h)

theorem odFind_odInsert_self (od : ObjectData) (k : String) (pr : Property) :
    odFind (odInsert od k pr) k = some pr := by
  induction od with
  | nil => simp [odInsert, odFind, List.find?]
  | cons hd rest ih =>
    obtain ⟨k2, v2⟩ := hd
    by_cases hk : k2 = k
    · simp [odInsert, hk, odFind, List.find?]
    · simp only [odInsert, if_neg hk]
      simpa [odFind, List.find?, hk] using ih

theorem setField_global (I : Interpreter) (u : ValueData) (k : String) (w : ValueData) :
    (setField I u k w).global = I.global := by
  cases u <;> simp [setField, heapSet]

theorem setField_heap_length (I : Interpreter) (u : ValueData) (k : String) (w : ValueData) :
    (setField I u k w).heap.length = I.heap.length := by
  cases u <;> simp [setField, heapSet]

theorem getField_setField_same (I : Interpreter) (p : Nat) (k : String) (w : ValueData)
    (hp : p < I.heap.length) :
    getField (setField I (.VObject p) k w) (.VObject p) k = w := by
  have hlen : (setField I (.VObject p) k w).heap.length = I.heap.length :=
    setField_heap_length ..
  have hget : heapGet (setField I (.VObject p) k w) p = odInsert (heapGet I p) k (Property.mk w) := by
    simp only [setField, heapSet, heapGet]
    exact getD_set_self _ _ _ _ hp
  simp only [getField, hlen]
  cases hI : I.heap.length with
  | zero => omega
  | succ m =>
    simp only [getFieldAux, hget, odFind_odInsert_self]

theorem isUndefined_true_iff (v : ValueData) : isUndefined v = true ↔ v = .VUndefined := by
  cases v <;> simp [isUndefined]

theorem isUndefined_false_of_ne {v : ValueData} (h : v ≠ .VUndefined) : isUndefined v = false := by
  cases v <;> simp_all [isUndefined]

theorem get_global_setField_self (I : Interpreter) (p : Nat) (name : String) (w : ValueData)
    (hg : I.global = .VObject p) (hp : p < I.heap.length) :
    (setField I I.global name w).get_global name = w := by
  simp only [Interpreter.get_global]
  rw [setField_global, hg]
  exact getField_setField_same I p name w hp

/-! ## Claim theorems. -/

/-- C1, counterexample: on `(function(x){ x = 1; x })(5)` the assignment to
`x` writes the global object even though the callee's scope binds `x`, so the
subsequent scope read still yields 5 (not the assigned 1) and `get_global "x"`
yields the assigned 1 (not Undefined) — against the claim that the nearest
scope binding is updated and the global is written only when no scope binds
the name. -/
theorem assign_local_scope_counterexample :
    (run 9 Interpreter.new c1expr).1 = .ok (.VNumber 5) ∧
    (run 9 Interpreter.new c1expr).2.get_global "x" = .VNumber 1 ∧
    (run 9 Interpreter.new c1expr).1 ≠ .ok (.VNumber 1) ∧
    (run 9 Interpreter.new c1expr).2.get_global "x" ≠ .VUndefined := by
  refine ⟨by decide, by decide, by decide, by decide⟩

/-- C1, amended: an assignment to a `Local` target evaluates the right-hand
side and always writes the global object, regardless of any scope binding of
the name (scope bindings are not updated); the expression's value is the
assigned value, and `get_global name` afterwards equals the assigned value
unconditionally. -/
theorem assign_local_writes_global (fuel : Nat) (I : Interpreter) (name : String)
    (valE : Expr) (v : ValueData) (I1 : Interpreter) (p : Nat)
    (hval : run fuel I valE = (.ok v, I1)) :
    run (fuel + 1) I (.AssignExpr (.LocalExpr name) valE) =
      (.ok v, setField I1 I1.global name v) ∧
    (I1.global = .VObject p → p < I1.heap.length →
      (run (fuel + 1) I (.AssignExpr (.LocalExpr name) valE)).2.get_global name = v) := by
  have hrun : run (fuel + 1) I (.AssignExpr (.LocalExpr name) valE) =
      (.ok v, setField I1 I1.global name v) := by
    simp [run, runStep, hval]
  refine ⟨hrun, fun hg hp => ?_⟩
  rw [hrun]
  exact get_global_setField_self I1 p name v hg hp

/-- C1, witness for `assign_local_writes_global` at `x = 3` from the fresh
interpreter state. -/
theorem assign_local_writes_global_witness :
    run 2 Interpreter.new (.AssignExpr (.LocalExpr "x") (.ConstExpr (.CNum 3))) =
      (.ok (.VNumber 3), setField Interpreter.new Interpreter.new.global "x" (.VNumber 3)) ∧
    (run 2 Interpreter.new (.AssignExpr (.LocalExpr "x") (.ConstExpr (.CNum 3)))).2.get_global "x" =
      .VNumber 3 :=
  ⟨(assign_local_writes_global 1 Interpreter.new "x" (.ConstExpr (.CNum 3)) (.VNumber 3)
      Interpreter.new 0 (by rfl)).1,
   (assign_local_writes_global 1 Interpreter.new "x" (.ConstExpr (.CNum 3)) (.VNumber 3)
      Interpreter.new 0 (by rfl)).2 (by rfl) (by decide)⟩

/-- C2, counterexample: in `x = 42; (function(x){ x })()` the parameter `x`
is bound (to Undefined) in the callee's scope, yet the `Local` read returns
the global 42 instead of the scope's Undefined — the nearest binding whose
stored value is Undefined is bypassed in favour of the global. -/
theorem local_undefined_scope_counterexample :
    (run 9 Interpreter.new c2expr).1 = .ok (.VNumber 42) ∧
    (run 9 Interpreter.new c2expr).1 ≠ .ok .VUndefined := by
  exact ⟨by decide, by decide⟩

/-- C2, amended: a `Local` read returns the value of the nearest scope
binding found walking the stack top-down only when that value is not
Undefined; when the nearest binding holds Undefined — exactly as when no
scope binds the name — the global object's field is read instead (and is
itself Undefined when absent). -/
theorem local_lookup_behavior (fuel : Nat) (I : Interpreter) (name : String) :
    (scopeLookup I.scopes name ≠ .VUndefined →
      run (fuel + 1) I (.LocalExpr name) = (.ok (scopeLookup I.scopes name), I)) ∧
    (scopeLookup I.scopes name = .VUndefined →
      run (fuel + 1) I (.LocalExpr name) = (.ok (getField I I.global name), I)) := by
  constructor
  · intro h
    simp [run, runStep, isUndefined_false_of_ne h]
  · intro h
    simp [run, runStep, h, isUndefined]

/-- C2, witness for `local_lookup_behavior`: a scope binding `x := 3` is
returned, and an unbound `y` falls through to the (empty) global. -/
theorem local_lookup_behavior_witness :
    run 1 scopedState (.LocalExpr "x") = (.ok (.VNumber 3), scopedState) ∧
    run 1 Interpreter.new (.LocalExpr "y") = (.ok .VUndefined, Interpreter.new) :=
  ⟨(local_lookup_behavior 0 scopedState "x").1 (by decide),
   (local_lookup_behavior 0 Interpreter.new "y").2 (by decide)⟩

/-- C3, counterexample: `run(Const(Int(7)))` yields `Number(7)` (the source
converts with `num as f64`), not the claimed `Integer(7)`. -/
theorem const_int_counterexample :
    run 1 Interpreter.new (.ConstExpr (.CInt 7)) = (.ok (.VNumber 7), Interpreter.new) ∧
    (Outcome.ok (.VNumber 7) ≠ Outcome.ok (.VInteger 7)) := by
  exact ⟨by rfl, by decide⟩

/-- C3, amended: every primitive constant evaluates to itself as the normal
result — except `Int(n)`, which evaluates to `Number(n as f64)` rather than
an `Integer` value. -/
theorem const_eval_behavior (fuel : Nat) (I : Interpreter) :
    run (fuel + 1) I (.ConstExpr .CNull) = (.ok .VNull, I) ∧
    run (fuel + 1) I (.ConstExpr .CUndefined) = (.ok .VUndefined, I) ∧
    (∀ q : ℚ, run (fuel + 1) I (.ConstExpr (.CNum q)) = (.ok (.VNumber q), I)) ∧
    (∀ s : String, run (fuel + 1) I (.ConstExpr (.CString s)) = (.ok (.VString s), I)) ∧
    (∀ b : Bool, run (fuel + 1) I (.ConstExpr (.CBool b)) = (.ok (.VBoolean b), I)) ∧
    (∀ n : Int, run (fuel + 1) I (.ConstExpr (.CInt n)) = (.ok (.VNumber (n : ℚ)), I)) := by
  refine ⟨?_, ?_, ?_, ?_, ?_, ?_⟩ <;> simp [run, runStep, to_value]

/-- C4: when the constructor call of `new F(...)` throws, the source calls
`.unwrap()` on the `Err` result and aborts (`crash` in the model) instead of
propagating the thrown value as `run`'s `Err` branch; when the call returns
normally, the construct's value is the fresh object (here the second heap
cell) regardless of the call's return value. -/
theorem construct_throw_crashes :
    (run 9 Interpreter.new c4expr).1 = .crash ∧
    (run 9 Interpreter.new c4expr).1 ≠ .thrown .VNull ∧
    (run 9 Interpreter.new c4okexpr).1 = .ok (.VObject 1) := by
  exact ⟨by decide, by decide, by decide⟩

/-- The `CallExpr` tail on a non-function resolved callee fails with
`Thrown(Undefined)`. -/
theorem invoke_nonfunction (ev : Interpreter → Expr → Outcome × Interpreter) (I : Interpreter)
    (this v : ValueData) (vs : List ValueData) (h : isFunction v = false) :
    invoke ev I this v vs = (.thrown .VUndefined, I) := by
  cases v <;> simp_all [invoke, isFunction]

/-- C5: with the arguments already evaluated left to right, a `Call` whose
resolved callee value is not a `Function` yields `Thrown(Undefined)` (for a
plain callee, a constant-field callee and a computed-field callee alike),
an argument failure propagates instead, and a `Construct` whose callee
value is not a function yields the normal value Undefined (its argument
failures also propagate). -/
theorem call_nonfunction_behavior :
    (∀ (fuel : Nat) (I I1 I2 : Interpreter) (callee : Expr) (args : List Expr)
        (v : ValueData) (vs : List ValueData),
      isFieldAccess callee = false →
      isFunction v = false →
      run fuel I callee = (.ok v, I1) →
      runArgs (run fuel) I1 args = (.inr vs, I2) →
      run (fuel + 1) I (.CallExpr callee args) = (.thrown .VUndefined, I2)) ∧
    (∀ (fuel : Nat) (I I1 I2 : Interpreter) (callee : Expr) (args : List Expr)
        (v : ValueData) (o : Outcome),
      isFieldAccess callee = false →
      run fuel I callee = (.ok v, I1) →
      runArgs (run fuel) I1 args = (.inl o, I2) →
      run (fuel + 1) I (.CallExpr callee args) = (o, I2)) ∧
    (∀ (fuel : Nat) (I I1 I2 : Interpreter) (obj : Expr) (field : String) (args : List Expr)
        (ov : ValueData) (vs : List ValueData),
      isFunction (getField I1 ov field) = false →
      run fuel I obj = (.ok ov, I1) →
      runArgs (run fuel) I1 args = (.inr vs, I2) →
      run (fuel + 1) I (.CallExpr (.GetConstFieldExpr obj field) args) =
        (.thrown .VUndefined, I2)) ∧
    (∀ (fuel : Nat) (I I1 I2 : Interpreter) (callee : Expr) (args : List Expr)
        (v : ValueData) (vs : List ValueData),
      isFunction v = false →
      run fuel I callee = (.ok v, I1) →
      runArgs (run fuel) I1 args = (.inr vs, I2) →
      (run (fuel + 1) I (.ConstructExpr callee args)).1 = .ok .VUndefined) ∧
    (∀ (fuel : Nat) (I I1 I2 : Interpreter) (callee : Expr) (args : List Expr)
        (v : ValueData) (o : Outcome),
      run fuel I callee = (.ok v, I1) →
      runArgs (run fuel) I1 args = (.inl o, I2) →
      run (fuel + 1) I (.ConstructExpr callee args) = (o, I2)) ∧
    (∀ (fuel : Nat) (I I1 I2 I3 : Interpreter) (obj fieldE : Expr) (args : List Expr)
        (ov fv : ValueData) (vs : List ValueData),
      run fuel I obj = (.ok ov, I1) →
      run fuel I1 fieldE = (.ok fv, I2) →
      isFunction (getField I2 ov (to_str fv)) = false →
      runArgs (run fuel) I2 args = (.inr vs, I3) →
      run (fuel + 1) I (.CallExpr (.GetFieldExpr obj fieldE) args) =
        (.thrown .VUndefined, I3)) := by
  refine ⟨?_, ?_, ?_, ?_, ?_, ?_⟩
  · intro fuel I I1 I2 callee args v vs hfa hfn hc ha
    cases callee <;>
      simp_all [isFieldAccess, run, runStep, invoke_nonfunction _ _ _ _ _ hfn]
  · intro fuel I I1 I2 callee args v o hfa hc ha
    cases callee <;> simp_all [isFieldAccess, run, runStep]
  · intro fuel I I1 I2 obj field args ov vs hfn hc ha
    simp [run, runStep, hc, ha, invoke_nonfunction _ _ _ _ _ hfn]
  · intro fuel I I1 I2 callee args v vs hfn hc ha
    simp only [run, runStep, hc, ha]
    cases v <;> simp_all [isFunction]
  · intro fuel I I1 I2 callee args v o hc ha
    simp [run, runStep, hc, ha]
  · intro fuel I I1 I2 I3 obj fieldE args ov fv vs hobj hfield hfn ha
    simp [run, runStep, hobj, hfield, ha, invoke_nonfunction _ _ _ _ _ hfn]

/-- C5, witness for `call_nonfunction_behavior`: calling the number 3 with
one (evaluated) argument throws Undefined; constructing it yields
Undefined. -/
theorem call_nonfunction_behavior_witness :
    run 2 Interpreter.new (.CallExpr (.ConstExpr (.CNum 3)) [.ConstExpr (.CNum 1)]) =
      (.thrown .VUndefined, Interpreter.new) ∧
    (run 2 Interpreter.new (.ConstructExpr (.ConstExpr (.CNum 3)) [.ConstExpr (.CNum 1)])).1 =
      .ok .VUndefined :=
  ⟨call_nonfunction_behavior.1 1 Interpreter.new Interpreter.new Interpreter.new
      (.ConstExpr (.CNum 3)) [.ConstExpr (.CNum 1)] (.VNumber 3) [.VNumber 1]
      (by decide) (by decide) (by rfl) (by rfl),
   call_nonfunction_behavior.2.2.2.1 1 Interpreter.new Interpreter.new Interpreter.new
      (.ConstExpr (.CNum 3)) [.ConstExpr (.CNum 1)] (.VNumber 3) [.VNumber 1]
      (by decide) (by rfl) (by rfl)⟩

/-- C6, counterexample: in `o = {a: 1}; o["a"] = 2; o.a` the computed-field
assignment is a silent no-op (the `AssignExpr` arm matches only `Local` and
constant-field targets), so the subsequent read yields 1, not the assigned
2. -/
theorem assign_computed_field_counterexample :
    (run 9 Interpreter.new c6expr).1 = .ok (.VNumber 1) ∧
    (run 9 Interpreter.new c6expr).1 ≠ .ok (.VNumber 2) := by
  exact ⟨by decide, by decide⟩

/-- C6, amended: an assignment whose target is a computed field `obj[expr]`
evaluates the right-hand side only and changes nothing (it does not even
evaluate `obj`), its value being the assigned value; only a constant-field
target `obj.field` evaluates the object and calls `set_field`, after which
reading that field on the object yields the assigned value. -/
theorem assign_field_behavior :
    (∀ (fuel : Nat) (I I1 : Interpreter) (obj key valE : Expr) (v : ValueData),
      run fuel I valE = (.ok v, I1) →
      run (fuel + 1) I (.AssignExpr (.GetFieldExpr obj key) valE) = (.ok v, I1)) ∧
    (∀ (fuel : Nat) (I I1 I2 : Interpreter) (obj : Expr) (field : String) (valE : Expr)
        (v ov : ValueData),
      run fuel I valE = (.ok v, I1) →
      run fuel I1 obj = (.ok ov, I2) →
      run (fuel + 1) I (.AssignExpr (.GetConstFieldExpr obj field) valE) =
        (.ok v, setField I2 ov field v)) ∧
    (∀ (I : Interpreter) (p : Nat) (field : String) (v : ValueData),
      p < I.heap.length →
      getField (setField I (.VObject p) field v) (.VObject p) field = v) := by
  refine ⟨?_, ?_, ?_⟩
  · intro fuel I I1 obj key valE v hval
    simp [run, runStep, hval]
  · intro fuel I I1 I2 obj field valE v ov hval hobj
    simp [run, runStep, hval, hobj]
  · intro I p field v hp
    exact getField_setField_same I p field v hp

/-- C6, witness for `assign_field_behavior`: a computed-field assignment
leaves the fresh state unchanged; a constant-field assignment on a
(non-object) Null target produces the `set_field` no-op state; a stored
field reads back. -/
theorem assign_field_behavior_witness :
    run 2 Interpreter.new
        (.AssignExpr (.GetFieldExpr (.ConstExpr .CNull) (.ConstExpr .CNull))
          (.ConstExpr (.CNum 2))) = (.ok (.VNumber 2), Interpreter.new) ∧
    run 2 Interpreter.new
        (.AssignExpr (.GetConstFieldExpr (.ConstExpr .CNull) "a") (.ConstExpr (.CNum 2))) =
      (.ok (.VNumber 2), setField Interpreter.new .VNull "a" (.VNumber 2)) ∧
    getField (setField Interpreter.new (.VObject 0) "a" (.VNumber 2)) (.VObject 0) "a" =
      .VNumber 2 :=
  ⟨assign_field_behavior.1 1 Interpreter.new Interpreter.new (.ConstExpr .CNull)
      (.ConstExpr .CNull) (.ConstExpr (.CNum 2)) (.VNumber 2) (by rfl),
   assign_field_behavior.2.1 1 Interpreter.new Interpreter.new Interpreter.new
      (.ConstExpr .CNull) "a" (.ConstExpr (.CNum 2)) (.VNumber 2) .VNull (by rfl) (by rfl),
   assign_field_behavior.2.2 Interpreter.new 0 "a" (.VNumber 2) (by decide)⟩

/-- The switch case loop is append-compositional: it never exits early, so
processing `cs1 ++ cs2` is processing `cs1` and then continuing with `cs2`
from the resulting state, result and matched flag (even when `cs1` already
matched). -/
theorem runCases_append (ev : Interpreter → Expr → Outcome × Interpreter) (val : ValueData)
    (cs1 cs2 : List (Expr × List Expr)) :
    ∀ (I : Interpreter) (res : ValueData) (m : Bool),
      runCases ev I val (cs1 ++ cs2) res m =
        match runCases ev I val cs1 res m with
        | (.inr (res2, m2), I2) => runCases ev I2 val cs2 res2 m2
        | (.inl o, I2) => (.inl o, I2) := by
  induction cs1 with
  | nil => intro I res m; simp [runCases]
  | cons hd tl ih =>
    intro I res m
    obtain ⟨cond, block⟩ := hd
    simp only [List.cons_append, runCases]
    rcases hc : ev I cond with ⟨o, I1⟩
    cases o with
    | ok cv =>
      by_cases hv : valueBeq val cv
      · simp only [hv, if_true]
        cases block with
        | nil => rfl
        | cons b bs =>
          rcases hcb : runCaseBlock ev I1 res (b :: bs) with ⟨s, I2⟩
          cases s with
          | inl o2 => rfl
          | inr r2 => exact ih I2 r2 true
      · simp only [Bool.not_eq_true] at hv
        simp only [hv, Bool.false_eq_true, if_false]
        exact ih I1 res m
    | thrown t => rfl
    | crash => rfl
    | timeout => rfl

/-- When some case matched, a present default block is skipped and the
switch's value is the last matching block's last value. -/
theorem switch_matched_skips_default (fuel : Nat) (I I1 I2 : Interpreter) (discE : Expr)
    (branches : List (Expr × List Expr)) (d : Expr) (v res : ValueData)
    (hd : run fuel I discE = (.ok v, I1))
    (hc : runCases (run fuel) I1 v branches .VNull false = (.inr (res, true), I2)) :
    run (fuel + 1) I (.SwitchExpr discE branches (some d)) = (.ok res, I2) := by
  simp [run, runStep, hd, hc]

/-- When no case matched, a present default block runs and provides the
switch's value. -/
theorem switch_unmatched_runs_default (fuel : Nat) (I I1 I2 I3 : Interpreter) (discE : Expr)
    (branches : List (Expr × List Expr)) (d : Expr) (v res dv : ValueData)
    (hd : run fuel I discE = (.ok v, I1))
    (hc : runCases (run fuel) I1 v branches .VNull false = (.inr (res, false), I2))
    (hdef : run fuel I2 d = (.ok dv, I3)) :
    run (fuel + 1) I (.SwitchExpr discE branches (some d)) = (.ok dv, I3) := by
  simp [run, runStep, hd, hc, hdef]

/-- C9: the case loop is append-compositional (no early exit after a match:
every later case expression is still evaluated and every later matching
block still runs, the result being overwritten by the last matching block);
the default runs exactly when no case matched.  The `c9switch` family
exhibits it concretely: the first and third cases match (`x` and `y` are
both assigned, the result is the third block's last value 7), the second
case's expression runs for its side effect on `c` but its block does not
(`w` stays Undefined), and the default does not run (`z` stays Undefined);
in the `c9nomatch` family no case matches and the default runs. -/
theorem switch_all_cases_behavior :
    (∀ (ev : Interpreter → Expr → Outcome × Interpreter) (val : ValueData)
        (cs1 cs2 : List (Expr × List Expr)) (I : Interpreter) (res : ValueData) (m : Bool),
      runCases ev I val (cs1 ++ cs2) res m =
        match runCases ev I val cs1 res m with
        | (.inr (res2, m2), I2) => runCases ev I2 val cs2 res2 m2
        | (.inl o, I2) => (.inl o, I2)) ∧
    (∀ (fuel : Nat) (I I1 I2 : Interpreter) (discE : Expr)
        (branches : List (Expr × List Expr)) (d : Expr) (v res : ValueData),
      run fuel I discE = (.ok v, I1) →
      runCases (run fuel) I1 v branches .VNull false = (.inr (res, true), I2) →
      run (fuel + 1) I (.SwitchExpr discE branches (some d)) = (.ok res, I2)) ∧
    (∀ (fuel : Nat) (I I1 I2 I3 : Interpreter) (discE : Expr)
        (branches : List (Expr × List Expr)) (d : Expr) (v res dv : ValueData),
      run fuel I discE = (.ok v, I1) →
      runCases (run fuel) I1 v branches .VNull false = (.inr (res, false), I2) →
      run fuel I2 d = (.ok dv, I3) →
      run (fuel + 1) I (.SwitchExpr discE branches (some d)) = (.ok dv, I3)) ∧
    (∀ flag : Bool,
      (run 9 Interpreter.new (c9switch flag)).1 = .ok (.VNumber 7) ∧
      (run 9 Interpreter.new (c9switch flag)).2.get_global "x" = .VNumber 1 ∧
      (run 9 Interpreter.new (c9switch flag)).2.get_global "c" = .VBoolean (!flag) ∧
      (run 9 Interpreter.new (c9switch flag)).2.get_global "y" = .VNumber 2 ∧
      (run 9 Interpreter.new (c9switch flag)).2.get_global "w" = .VUndefined ∧
      (run 9 Interpreter.new (c9switch flag)).2.get_global "z" = .VUndefined) ∧
    (∀ flag : Bool,
      (run 9 Interpreter.new (c9nomatch flag)).1 = .ok (.VNumber 9) ∧
      (run 9 Interpreter.new (c9nomatch flag)).2.get_global "z" = .VNumber 9 ∧
      (run 9 Interpreter.new (c9nomatch flag)).2.get_global "x" = .VUndefined) := by
  refine ⟨runCases_append, switch_matched_skips_default, switch_unmatched_runs_default, ?_, ?_⟩
  · intro flag
    cases flag <;> exact ⟨by decide, by decide, by decide, by decide, by decide, by decide⟩
  · intro flag
    cases flag <;> exact ⟨by decide, by decide, by decide⟩

/-- C9, witness for `switch_all_cases_behavior`: a one-case matching switch
skips its default; a one-case non-matching switch runs it. -/
theorem switch_all_cases_behavior_witness :
    run 4 Interpreter.new
        (.SwitchExpr (.ConstExpr (.CBool true))
          [(.ConstExpr (.CBool true), [.ConstExpr (.CNum 5)])]
          (some (.ConstExpr (.CNum 9)))) = (.ok (.VNumber 5), Interpreter.new) ∧
    run 4 Interpreter.new
        (.SwitchExpr (.ConstExpr (.CBool true))
          [(.ConstExpr (.CBool false), [.ConstExpr (.CNum 5)])]
          (some (.ConstExpr (.CNum 9)))) = (.ok (.VNumber 9), Interpreter.new) :=
  ⟨switch_all_cases_behavior.2.1 3 Interpreter.new Interpreter.new Interpreter.new
      (.ConstExpr (.CBool true)) [(.ConstExpr (.CBool true), [.ConstExpr (.CNum 5)])]
      (.ConstExpr (.CNum 9)) (.VBoolean true) (.VNumber 5) (by rfl) (by rfl),
   switch_all_cases_behavior.2.2.1 3 Interpreter.new Interpreter.new Interpreter.new
      Interpreter.new (.ConstExpr (.CBool true))
      [(.ConstExpr (.CBool false), [.ConstExpr (.CNum 5)])] (.ConstExpr (.CNum 9))
      (.VBoolean true) .VNull (.VNumber 9) (by rfl) (by rfl) (by rfl)⟩



theorem tokensOk_pushToken {st : LexerState} (tk : TokenData) (h : TokensOk st) :
    TokensOk (pushToken st tk) := by
  obtain ⟨h1, h2⟩ := h
  refine ⟨h1, ?_⟩
  intro t ht
  simp only [pushToken, List.mem_append, List.mem_singleton] at ht
  rcases ht with ht | rfl
  · exact h2 t ht
  · exact h1

theorem tokensOk_flushIdent {st : LexerState} (h : TokensOk st) :
    TokensOk (flushIdent st) ∧ (flushIdent st).lineNumber = st.lineNumber := by
  unfold flushIdent
  split
  · exact ⟨h, rfl⟩
  · exact ⟨⟨h.1, (tokensOk_pushToken _ h).2⟩, rfl⟩

theorem tokensOk_flushNumber {st st2 : LexerState} (h : flushNumber st = some st2)
    (hok : TokensOk st) : TokensOk st2 ∧ st2.lineNumber = st.lineNumber := by
  unfold flushNumber at h
  split at h
  · cases h; exact ⟨hok, rfl⟩
  · split at h
    · cases h
      exact ⟨⟨hok.1, (tokensOk_pushToken _ hok).2⟩, rfl⟩
    · cases h

theorem tokensOk_clearBuffer {st st2 : LexerState} (h : clearBuffer st = some st2)
    (hok : TokensOk st) : TokensOk st2 ∧ st2.lineNumber = st.lineNumber := by
  unfold clearBuffer at h
  obtain ⟨h1, h2⟩ := tokensOk_flushIdent hok
  obtain ⟨h3, h4⟩ := tokensOk_flushNumber h h1
  exact ⟨h3, h4.trans h2⟩

theorem tokensOk_emitAfterClear {st st2 : LexerState} {tk : TokenData} {k k2 : Nat}
    (h : emitAfterClear st tk k = some (st2, k2)) (hok : TokensOk st) : TokensOk st2 := by
  unfold emitAfterClear at h
  split at h
  · rename_i st3 hcb
    injection h with h2
    injection h2 with hA hB
    subst hA
    obtain ⟨hC, _⟩ := tokensOk_clearBuffer hcb hok
    exact ⟨hC.1, (tokensOk_pushToken _ hC).2⟩
  · exact Option.noConfusion h

theorem tokensOk_dispatchEnd {st : LexerState} {c : Char} {st2 : LexerState}
    {k : Nat} (h : dispatchEnd st c = some (st2, k)) (hok : TokensOk st) : TokensOk st2 := by
  unfold dispatchEnd at h
  by_cases h1 : c = '\n'
  · rw [if_pos h1] at h
    cases hcb : clearBuffer st with
    | none => rw [hcb] at h; exact Option.noConfusion h
    | some st3 =>
      rw [hcb] at h
      injection h with h2
      injection h2 with hA hB
      subst hA
      obtain ⟨⟨hC1, hC2⟩, _⟩ := tokensOk_clearBuffer hcb hok
      refine ⟨?_, hC2⟩
      show 1 ≤ st3.lineNumber + 1
      omega
  · rw [if_neg h1] at h
    by_cases h2 : c = '\r'
    · rw [if_pos h2] at h
      cases hcb : clearBuffer st with
      | none => rw [hcb] at h; exact Option.noConfusion h
      | some st3 =>
        rw [hcb] at h
        injection h with h3
        injection h3 with hA hB
        subst hA
        obtain ⟨⟨hC1, hC2⟩, _⟩ := tokensOk_clearBuffer hcb hok
        exact ⟨hC1, hC2⟩
    · rw [if_neg h2] at h
      by_cases h3 : c.isWhitespace
      · rw [if_pos h3] at h
        cases hcb : clearBuffer st with
        | none => rw [hcb] at h; exact Option.noConfusion h
        | some st3 =>
          rw [hcb] at h
          injection h with h4
          injection h4 with hA hB
          subst hA
          exact (tokensOk_clearBuffer hcb hok).1
      · rw [if_neg h3] at h
        injection h with h4
        injection h4 with hA hB
        subst hA
        exact hok

theorem tokensOk_dispatchComp {st : LexerState} {c : Char} {rest : List Char} {st2 : LexerState}
    {k : Nat} (h : dispatchComp st c rest = some (st2, k)) (hok : TokensOk st) : TokensOk st2 := by
  unfold dispatchComp at h
  repeat' split at h
  all_goals
    first
      | exact Option.noConfusion h
      | exact tokensOk_emitAfterClear h hok
      | exact tokensOk_dispatchEnd h hok
      | (injection h with h2
         injection h2 with hA hB
         subst hA
         first
           | exact hok
           | exact ⟨hok.1, (tokensOk_pushToken _ hok).2⟩)

theorem tokensOk_dispatchEq {st : LexerState} {c : Char} {rest : List Char} {st2 : LexerState}
    {k : Nat} (h : dispatchEq st c rest = some (st2, k)) (hok : TokensOk st) : TokensOk st2 := by
  unfold dispatchEq at h
  repeat' split at h
  all_goals
    first
      | exact Option.noConfusion h
      | exact tokensOk_emitAfterClear h hok
      | exact tokensOk_dispatchComp h hok
      | (injection h with h2
         injection h2 with hA hB
         subst hA
         first
           | exact hok
           | exact ⟨hok.1, (tokensOk_pushToken _ hok).2⟩)

theorem tokensOk_dispatchBitOps {st : LexerState} {c : Char} {rest : List Char} {st2 : LexerState}
    {k : Nat} (h : dispatchBitOps st c rest = some (st2, k)) (hok : TokensOk st) : TokensOk st2 := by
  unfold dispatchBitOps at h
  repeat' split at h
  all_goals
    first
      | exact Option.noConfusion h
      | exact tokensOk_emitAfterClear h hok
      | exact tokensOk_dispatchEq h hok
      | (injection h with h2
         injection h2 with hA hB
         subst hA
         first
           | exact hok
           | exact ⟨hok.1, (tokensOk_pushToken _ hok).2⟩)

theorem tokensOk_dispatchNumOps {st : LexerState} {c : Char} {rest : List Char} {st2 : LexerState}
    {k : Nat} (h : dispatchNumOps st c rest = some (st2, k)) (hok : TokensOk st) : TokensOk st2 := by
  unfold dispatchNumOps at h
  repeat' split at h
  all_goals
    first
      | exact Option.noConfusion h
      | exact tokensOk_emitAfterClear h hok
      | exact tokensOk_dispatchBitOps h hok
      | (injection h with h2
         injection h2 with hA hB
         subst hA
         first
           | exact hok
           | exact ⟨hok.1, (tokensOk_pushToken _ hok).2⟩)

theorem tokensOk_dispatchSlash {st : LexerState} {c : Char} {rest : List Char} {st2 : LexerState}
    {k : Nat} (h : dispatchSlash st c rest = some (st2, k)) (hok : TokensOk st) : TokensOk st2 := by
  unfold dispatchSlash at h
  repeat' split at h
  all_goals
    first
      | exact Option.noConfusion h
      | exact tokensOk_emitAfterClear h hok
      | exact tokensOk_dispatchNumOps h hok
      | (injection h with h2
         injection h2 with hA hB
         subst hA
         first
           | exact hok
           | exact ⟨hok.1, (tokensOk_pushToken _ hok).2⟩)

theorem tokensOk_dispatchPunct2 {st : LexerState} {c : Char} {rest : List Char} {st2 : LexerState}
    {k : Nat} (h : dispatchPunct2 st c rest = some (st2, k)) (hok : TokensOk st) : TokensOk st2 := by
  unfold dispatchPunct2 at h
  repeat' split at h
  all_goals
    first
      | exact Option.noConfusion h
      | exact tokensOk_emitAfterClear h hok
      | exact tokensOk_dispatchSlash h hok
      | (injection h with h2
         injection h2 with hA hB
         subst hA
         first
           | exact hok
           | exact ⟨hok.1, (tokensOk_pushToken _ hok).2⟩)

theorem tokensOk_dispatchPunct {st : LexerState} {c : Char} {rest : List Char} {st2 : LexerState}
    {k : Nat} (h : dispatchPunct st c rest = some (st2, k)) (hok : TokensOk st) : TokensOk st2 := by
  unfold dispatchPunct at h
  repeat' split at h
  all_goals
    first
      | exact Option.noConfusion h
      | exact tokensOk_emitAfterClear h hok
      | exact tokensOk_dispatchPunct2 h hok
      | (injection h with h2
         injection h2 with hA hB
         subst hA
         first
           | exact hok
           | exact ⟨hok.1, (tokensOk_pushToken _ hok).2⟩)

theorem tokensOk_dispatchNumber2 {st : LexerState} {c : Char} {rest : List Char} {st2 : LexerState}
    {k : Nat} (h : dispatchNumber2 st c rest = some (st2, k)) (hok : TokensOk st) : TokensOk st2 := by
  unfold dispatchNumber2 at h
  repeat' split at h
  all_goals
    first
      | exact Option.noConfusion h
      | exact tokensOk_dispatchPunct h hok
      | (injection h with h2
         injection h2 with hA hB
         subst hA
         first
           | exact hok
           | exact ⟨hok.1, (tokensOk_pushToken _ hok).2⟩)

theorem tokensOk_dispatchNumber {st : LexerState} {c : Char} {rest : List Char} {st2 : LexerState}
    {k : Nat} (h : dispatchNumber st c rest = some (st2, k)) (hok : TokensOk st) : TokensOk st2 := by
  unfold dispatchNumber at h
  repeat' split at h
  all_goals
    first
      | exact Option.noConfusion h
      | exact tokensOk_dispatchNumber2 h hok
      | (injection h with h2
         injection h2 with hA hB
         subst hA
         first
           | exact hok
           | exact ⟨hok.1, (tokensOk_pushToken _ hok).2⟩)

theorem tokensOk_dispatchString {st : LexerState} {c : Char} {rest : List Char} {st2 : LexerState}
    {k : Nat} (h : dispatchString st c rest = some (st2, k)) (hok : TokensOk st) : TokensOk st2 := by
  unfold dispatchString at h
  repeat' split at h
  all_goals
    first
      | exact Option.noConfusion h
      | exact tokensOk_dispatchNumber h hok
      | (injection h with h2
         injection h2 with hA hB
         subst hA
         first
           | exact hok
           | exact ⟨hok.1, (tokensOk_pushToken _ hok).2⟩)

theorem tokensOk_dispatchComment {st : LexerState} {c : Char} {rest : List Char} {st2 : LexerState}
    {k : Nat} (h : dispatchComment st c rest = some (st2, k)) (hok : TokensOk st) : TokensOk st2 := by
  unfold dispatchComment at h
  repeat' split at h
  all_goals
    first
      | exact Option.noConfusion h
      | exact tokensOk_dispatchString h hok
      | (injection h with h2
         injection h2 with hA hB
         subst hA
         first
           | exact hok
           | exact ⟨hok.1, (tokensOk_pushToken _ hok).2⟩)

theorem tokensOk_escapeStepC {st : LexerState} {c : Char} {rest : List Char} {st2 : LexerState}
    {k : Nat} (h : escapeStepC st c rest = some (st2, k)) (hok : TokensOk st) : TokensOk st2 := by
  unfold escapeStepC at h
  repeat' split at h
  all_goals
    first
      | exact Option.noConfusion h
      | (injection h with h2
         injection h2 with hA hB
         subst hA
         exact hok)

theorem tokensOk_escapeStepB {st : LexerState} {c : Char} {rest : List Char} {st2 : LexerState}
    {k : Nat} (h : escapeStepB st c rest = some (st2, k)) (hok : TokensOk st) : TokensOk st2 := by
  unfold escapeStepB at h
  repeat' split at h
  all_goals
    first
      | exact Option.noConfusion h
      | exact tokensOk_escapeStepC h hok
      | (injection h with h2
         injection h2 with hA hB
         subst hA
         exact hok)

theorem tokensOk_escapeStepA {st : LexerState} {c : Char} {rest : List Char} {st2 : LexerState}
    {k : Nat} (h : escapeStepA st c rest = some (st2, k)) (hok : TokensOk st) : TokensOk st2 := by
  unfold escapeStepA at h
  repeat' split at h
  all_goals
    first
      | exact Option.noConfusion h
      | exact tokensOk_escapeStepB h hok
      | (injection h with h2
         injection h2 with hA hB
         subst hA
         exact hok)

theorem tokensOk_lexStep {st : LexerState} {c : Char} {rest : List Char} {st2 : LexerState}
    {k : Nat} (h : lexStep st c rest = some (st2, k)) (hok : TokensOk st) : TokensOk st2 := by
  unfold lexStep at h
  split at h
  · exact tokensOk_escapeStepA h hok
  · exact tokensOk_dispatchComment h hok

theorem tokensOk_lexRunAux : ∀ (fuel : Nat) (cs : List Char) (st st2 : LexerState),
    lexRunAux fuel st cs = some st2 → TokensOk st → TokensOk st2 := by
  intro fuel
  induction fuel with
  | zero =>
    intro cs st st2 h hok
    cases cs with
    | nil => exact (tokensOk_clearBuffer h hok).1
    | cons c rest => exact Option.noConfusion h
  | succ n ih =>
    intro cs st st2 h hok
    cases cs with
    | nil => exact (tokensOk_clearBuffer h hok).1
    | cons c rest =>
      unfold lexRunAux at h
      split at h
      · rename_i st3 k2 hstep
        exact ih _ _ _ h (tokensOk_lexStep hstep hok)
      · exact Option.noConfusion h

theorem lexStr_line_ge_one (s : String) (toks : List Token) (h : lexStr s = some toks) :
    ∀ t ∈ toks, 1 ≤ t.line := by
  unfold lexStr lexRun at h
  cases hrun : lexRunAux s.data.length Lexer.new s.data with
  | none => rw [hrun] at h; exact Option.noConfusion h
  | some st2 =>
    rw [hrun] at h
    injection h with h2
    subst h2
    refine (tokensOk_lexRunAux _ _ _ _ hrun ⟨le_refl 1, ?_⟩).2
    intro t ht
    simp [Lexer.new] at ht

/-- C7: `lex_str "0xFF + 010 + 9"` produces exactly the token sequence
`TNumber 255, TNumOp(+), TNumber 8, TNumOp(+), TNumber 9`: `0x` starts a
hexadecimal number parsed with radix 16, a leading `0` followed by digits
0..7 lexes as octal parsed with radix 8, and a bare digit lexes as
decimal. -/
theorem lex_numeric_prefixes :
    (lexStr "0xFF + 010 + 9").map (fun ts => ts.map Token.data) =
      some [.TNumber 255, .TNumOp .OpAdd, .TNumber 8, .TNumOp .OpAdd, .TNumber 9] := by
  decide

/-- C8, counterexample: lexing `0xF;` consumes four characters and no
newline, yet the semicolon's token carries column 3, not the claimed 4: the
`x` consumed through the one-character lookahead register never passes
through the loop's column increment. -/
theorem lex_column_counterexample :
    lexStr "0xF;" = some [Token.mk (.TNumber 15) 1 3, Token.mk .TSemicolon 1 3] ∧
    lexStr "0xF;" ≠ some [Token.mk (.TNumber 15) 1 3, Token.mk .TSemicolon 1 4] := by
  exact ⟨by decide, by decide⟩

/-- C8, amended: every token of an accepted input carries a line number at
least 1, and the column advances by one per character read through the main
loop, plus the extra 2 or 4 of a `\xHH`/`\uHHHH` escape — but characters
absorbed through the one-character lookahead register (the second and third
characters of `===`, the `x` of `0x`) do not advance it; a newline
dispatched outside strings, comments and escapes flushes the buffers,
resets the column to 0 and increments the line.  The instances exhibit the
column behavior concretely. -/
theorem lex_positions_behavior :
    (∀ (s : String) (toks : List Token), lexStr s = some toks → ∀ t ∈ toks, 1 ≤ t.line) ∧
    lexStr "===;" = some [Token.mk (.TCompOp .CompEqual) 1 1, Token.mk .TSemicolon 1 2] ∧
    lexStr "\"\\x41\";" = some [Token.mk (.TString "A") 1 6, Token.mk .TSemicolon 1 7] ∧
    lexStr "a\nb;" =
      some [Token.mk (.TIdent "a") 1 2, Token.mk (.TIdent "b") 2 2, Token.mk .TSemicolon 2 2] := by
  exact ⟨lexStr_line_ge_one, by decide, by decide, by decide⟩

/-- C8, witness for `lex_positions_behavior`: the accepted input `0xF;`
yields tokens whose lines are all at least 1. -/
theorem lex_positions_behavior_witness :
    ∀ t ∈ [Token.mk (.TNumber 15) 1 3, Token.mk .TSemicolon 1 3], 1 ≤ t.line :=
  lex_positions_behavior.1 "0xF;" _ (by decide)

/-- C10: an unparsable digit group after `\x` (two characters) or `\u`
(four characters) does not abort lexing: the failed parse falls back to 0
and U+0000 is appended to the string buffer; such an escape aborts only
when the group parses successfully to a number that is not a valid Unicode
scalar value.  Concretely `"\xZZ"` lexes to a string holding U+0000,
`"\uD800"` (a surrogate) is fatal, and `"\u0041"` lexes to `"A"`. -/
theorem escape_invalid_hex_behavior :
    (∀ cs : List Char, parseRadixNat cs 16 = none → escapeHexChar cs = some (Char.ofNat 0)) ∧
    (∀ (cs : List Char) (v : Nat), parseRadixNat cs 16 = some v → isValidScalar v = false →
      escapeHexChar cs = none) ∧
    lexStr "\"\\xZZ\"" = some [Token.mk (.TString (String.mk [Char.ofNat 0])) 1 6] ∧
    lexStr "\"\\uD800\"" = none ∧
    lexStr "\"\\u0041\"" = some [Token.mk (.TString "A") 1 8] := by
  refine ⟨?_, ?_, by decide, by decide, by decide⟩
  · intro cs h
    simp [escapeHexChar, h, isValidScalar]
  · intro cs v h hv
    simp [escapeHexChar, h, hv]

/-- C10, witness for `escape_invalid_hex_behavior`: `ZZ` is not hex so the
escape yields U+0000; `D800` parses to the surrogate 55296, which is not a
valid scalar, so the escape is fatal. -/
theorem escape_invalid_hex_behavior_witness :
    escapeHexChar ['Z', 'Z'] = some (Char.ofNat 0) ∧
    escapeHexChar ['D', '8', '0', '0'] = none :=
  ⟨escape_invalid_hex_behavior.1 ['Z', 'Z'] (by decide),
   escape_invalid_hex_behavior.2.1 ['D', '8', '0', '0'] 55296 (by decide) (by decide)⟩

end JsRs
